import Mathlib

/-!
Verification development for the chat-driven SQL database application
(`app.py`, `db_utils.py`, `ingest_utils.py`, `llm_utils.py`).

Strings are modelled as `List Char` (Python `str`).  External collaborators
(the MySQL storage engine, the OpenAI generation backend) are modelled as
explicit function parameters, so every pipeline function of the source is a
pure Lean function of its collaborators.
-/

/-- Conversion from a Lean string literal to the `List Char` string model. -/
def toChars (s : String) : List Char := s.data

/-- The single-quote character (code point 39), kept out of literals. -/
def qc : Char := Char.ofNat 39

/-- The backtick character (code point 96), kept out of literals. -/
def btChar : Char := Char.ofNat 96

/-- Python `str.strip()` whitespace predicate (ASCII whitespace). -/
def isPySpace (c : Char) : Bool :=
  c = ' ' || c = '\t' || c = '\n' || c = '\r' || c = '\x0b' || c = '\x0c'

/-- Python `s.strip()`: drop leading and trailing whitespace. -/
def pyStrip (s : List Char) : List Char :=
  ((s.dropWhile isPySpace).reverse.dropWhile isPySpace).reverse

/-- Python `s.split(";")` for the one-character separator `;`:
splits at every occurrence and keeps empty fragments. -/
def splitSemi : List Char → List (List Char)
  | [] => [[]]
  | c :: rest =>
    if c = ';' then [] :: splitSemi rest
    else
      match splitSemi rest with
      | [] => [[c]]
      | f :: fs => (c :: f) :: fs

/-- Fuel-indexed worker for `eraseAll`; the fuel only serves structural
recursion and is irrelevant once it dominates the input length. -/
def eraseAllF (p : Char) (ps : List Char) : Nat → List Char → List Char
  | _, [] => []
  | 0, s => s
  | fuel + 1, c :: cs =>
    if (p :: ps).isPrefixOf (c :: cs) then eraseAllF p ps fuel (cs.drop ps.length)
    else c :: eraseAllF p ps fuel cs

/-- Python `s.replace(pat, "")` for the non-empty pattern `p :: ps`:
delete every occurrence, scanning left to right without rescanning
text to the left of a deletion. -/
def eraseAll (p : Char) (ps : List Char) (s : List Char) : List Char :=
  eraseAllF p ps s.length s

/-- Python `pat in s` substring test. -/
def containsSub (pat : List Char) : List Char → Bool
  | [] => pat.isEmpty
  | c :: cs => pat.isPrefixOf (c :: cs) || containsSub pat cs

/-- Concatenation of a list of strings (`"".join`). -/
def concatAll (L : List (List Char)) : List Char :=
  L.foldr (fun a b => a ++ b) []

/-- The fence-stripping step shared by `create_table_from_text`,
`insert_rows_from_text` (ingest_utils.py lines 106-108) and
`query_handler` (app.py lines 67-69):
`sql = sql.strip()`; if it starts with a sql-tagged fence, delete all
occurrences of the tagged opener and of bare fences, then strip again. -/
def cleanSql (raw : List Char) : List Char :=
  let s := pyStrip raw
  if (toChars "```sql").isPrefixOf s then
    pyStrip (eraseAll btChar (toChars "``") (eraseAll btChar (toChars "``sql") s))
  else s

/-- The statement split of `insert_rows_from_text` (ingest_utils.py line 111):
`[s.strip() + ";" for s in sql.split(";") if s.strip()]`. -/
def splitFilter (s : List Char) : List (List Char) :=
  (splitSemi s).filterMap (fun frag =>
    let t := pyStrip frag
    if t.isEmpty then none else some (t ++ [';']))

/-- The sanitizer of the spec: fence stripping followed by the
statement split (ingest_utils.py lines 106-111). -/
def sanitize (raw : List Char) : List (List Char) :=
  splitFilter (cleanSql raw)

/-- Re-serialization of a sanitized statement set; each statement already
carries its trailing terminator, so the statements are joined so that the
terminator separates them. -/
def sanitize_text (raw : List Char) : List Char :=
  concatAll (sanitize raw)

/-- Pandas dtype abstraction as tested by `infer_sql_type`
(ingest_utils.py lines 10-17). -/
inductive DType where
  | intD | floatD | boolD | datetimeD | otherD
deriving DecidableEq

/-- A cell of the ingested dataframe: a null (`pd.isna`), a Python string
value, or a non-string value carried by its `str(v)` rendering. -/
inductive Cell where
  | null : Cell
  | str (s : List Char) : Cell
  | other (s : List Char) : Cell
deriving DecidableEq

/-- `pd.notna` is false exactly on `null`. -/
def Cell.isNull : Cell → Bool
  | .null => true
  | _ => false

/-- Python `str(v)` for a cell (only used on non-null cells). -/
def Cell.render : Cell → List Char
  | .null => toChars "nan"
  | .str s => s
  | .other s => s

/-- The SQL column types produced by `infer_sql_type`. -/
inductive SqlType where
  | INT | FLOAT | BOOLEAN | DATETIME
  | VARCHAR (n : Nat)
deriving DecidableEq

/-- Rendering of a `SqlType` into the CREATE TABLE text. -/
def SqlType.renderT : SqlType → List Char
  | .INT => toChars "INT"
  | .FLOAT => toChars "FLOAT"
  | .BOOLEAN => toChars "BOOLEAN"
  | .DATETIME => toChars "DATETIME"
  | .VARCHAR n => toChars "VARCHAR(" ++ Nat.toDigits 10 n ++ toChars ")"

/-- Python `max(l, default=d)`. -/
def pyMaxD (l : List Nat) (d : Nat) : Nat :=
  match l with
  | [] => d
  | x :: xs => xs.foldl max x

/-- `infer_sql_type` (ingest_utils.py lines 8-21): dtype dispatch with a
VARCHAR fallback sized from the non-null samples, default length 255. -/
def infer_sql_type (dtype : DType) (sample_values : List Cell) : SqlType :=
  match dtype with
  | .intD => .INT
  | .floatD => .FLOAT
  | .boolD => .BOOLEAN
  | .datetimeD => .DATETIME
  | .otherD =>
    let max_len :=
      pyMaxD (((sample_values.filter (fun v => !v.isNull)).map
        (fun v => v.render.length))) 255
    .VARCHAR (min (max_len * 2) 500)

/-- A dataframe column header: name and pandas dtype. -/
structure ColHeader where
  name : List Char
  dtype : DType
deriving DecidableEq

/-- The dataframe produced by `pd.read_csv`: headers plus row-major cells
(rectangular: each row has one cell per header). -/
structure DF where
  headers : List ColHeader
  rows : List (List Cell)
deriving DecidableEq

/-- Column `j` of the dataframe, read off the rows. -/
def colCells (df : DF) (j : Nat) : List Cell :=
  df.rows.map (fun r => r.getD j Cell.null)

/-- Column-name normalization of `csv_to_sql` (ingest_utils.py line 43):
`col.strip().replace(" ", "_").replace("-", "_")`. -/
def cleanColName (name : List Char) : List Char :=
  (pyStrip name).map (fun c => if c = ' ' || c = '-' then '_' else c)

/-- The CREATE TABLE statement built by `csv_to_sql`
(ingest_utils.py lines 40-46); each column type is inferred from
`df[col].head()`, i.e. the first five cells of the column. -/
def create_stmt (df : DF) (table : List Char) : List Char :=
  let columns := df.headers.enum.map (fun p =>
    cleanColName p.2.name ++ toChars " " ++
      (infer_sql_type p.2.dtype ((colCells df p.1).take 5)).renderT)
  toChars "CREATE TABLE " ++ table ++ toChars " (" ++
    List.intercalate (toChars ", ") columns ++ toChars ");"

/-- Single-quote escaping of `csv_to_sql` (ingest_utils.py line 62):
`val.replace(qc, qc qc)` on a string value. -/
def pyEscape : List Char → List Char
  | [] => []
  | c :: rest => if c = qc then qc :: qc :: pyEscape rest else c :: pyEscape rest

/-- Value rendering of `csv_to_sql` (ingest_utils.py lines 57-65):
null becomes the bare NULL literal, strings are quoted with doubled
inner quotes, other values are rendered by `str(val)`. -/
def renderValue : Cell → List Char
  | .null => toChars "NULL"
  | .str s => [qc] ++ pyEscape s ++ [qc]
  | .other s => s

/-- The INSERT statement built by `csv_to_sql` for one row
(ingest_utils.py line 67). -/
def buildInsert (table : List Char) (row : List Cell) : List Char :=
  toChars "INSERT INTO " ++ table ++ toChars " VALUES (" ++
    List.intercalate (toChars ", ") (row.map renderValue) ++ toChars ");"

/-- The insert loop of `csv_to_sql` (ingest_utils.py lines 54-71): execute
one INSERT per row and count those whose result does not contain "Error". -/
def insertCount (run : List Char → List Char) (table : List Char) :
    List (List Cell) → Nat
  | [] => 0
  | r :: rest =>
    (if containsSub (toChars "Error") (run (buildInsert table r)) then 0 else 1) +
      insertCount run table rest

/-- `csv_to_sql` (ingest_utils.py lines 23-76), with the storage engine
abstracted as `run` (the `run_sql(stmt, fetch=False)` primitive, which
returns a success or error message string). -/
def csv_to_sql (run : List Char → List Char) (df : DF) (table : List Char) :
    List Char :=
  if df.rows.isEmpty then toChars "Error: CSV file is empty"
  else
    let cstmt := create_stmt df table
    let result := run cstmt
    if containsSub (toChars "Error") result then
      toChars "Error creating table: " ++ result
    else
      let cnt := insertCount run table df.rows
      toChars "Success! Created table " ++ [qc] ++ table ++ [qc] ++
        toChars " and inserted " ++ Nat.toDigits 10 cnt ++ toChars " rows."

/-- `call_llm` (llm_utils.py lines 12-30): a backend success is stripped and
returned; a backend exception is caught and returned as the text
"Error calling LLM: " followed by the exception message (not thrown). -/
def call_llm (backend : List Char → Except (List Char) (List Char))
    (prompt : List Char) : List Char :=
  match backend prompt with
  | .ok s => pyStrip s
  | .error e => toChars "Error calling LLM: " ++ e

/-- `create_table_from_text` (ingest_utils.py lines 78-94), with the
generator (`prompt_create_table`) and the storage engine abstracted. -/
def create_table_from_text (gen : List Char → List Char)
    (run : List Char → List Char) (description : List Char) : List Char :=
  let sql := gen description
  let sql2 := cleanSql sql
  let result := run sql2
  toChars "Generated SQL:\n" ++ sql2 ++ toChars "\n\nResult: " ++ result

/-- The per-statement execution loop of `insert_rows_from_text`
(ingest_utils.py lines 113-116): run every statement, collect every result. -/
def execAll (run : List Char → List Char) : List (List Char) → List (List Char)
  | [] => []
  | stmt :: rest => run stmt :: execAll run rest

/-- `insert_rows_from_text` (ingest_utils.py lines 96-118), with the
generator (`prompt_insert_rows`) and the storage engine abstracted. -/
def insert_rows_from_text (gen : List Char → List Char → List Char)
    (run : List Char → List Char) (table desc : List Char) : List Char :=
  let sql := cleanSql (gen table desc)
  let statements := splitFilter sql
  let results := execAll run statements
  toChars "Generated SQL:\n" ++ sql ++ toChars "\n\nResults:\n" ++
    List.intercalate [Char.ofNat 10] results

/-- The result of `run_sql(query, fetch=True)` (db_utils.py lines 39-69):
either a columns/rows dictionary (rows carried by their `str(row)`
rendering) or a message string. -/
inductive RunResult where
  | rowSet (columns : List (List Char)) (rws : List (List Char)) : RunResult
  | msg (s : List Char) : RunResult
deriving DecidableEq

/-- The triple returned by `query_handler`: results text, SQL text,
explanation text. -/
structure QHOut where
  resultsText : List Char
  sqlText : List Char
  explanation : List Char
deriving DecidableEq

/-- `query_handler` (app.py lines 55-85), with the schema introspector
(`get_table_schema`), the generator (`prompt_text_to_sql`), the storage
engine (`run_sql(sql, fetch=True)`) and the explainer
(`prompt_explain_results`) abstracted.  `none` models the uncaught Python
`TypeError` raised when `run_sql` returns a string not containing
"Error" and the handler indexes into it as a dictionary. -/
def query_handler (sOf : List Char → List Char)
    (gen : List Char → List Char → List Char)
    (run : List Char → RunResult)
    (expl : List Char → List Char → List (List Char) → List Char)
    (question tbl : List Char) : Option QHOut :=
  if question.isEmpty || tbl.isEmpty then
    some ⟨toChars "Please provide both a question and select a table", [], []⟩
  else
    let schema := sOf tbl
    let sql := cleanSql (gen question schema)
    match run sql with
    | RunResult.msg m =>
      if containsSub (toChars "Error") m then some ⟨m, sql, []⟩ else none
    | RunResult.rowSet cols rws =>
      let rt := toChars "Columns: " ++ List.intercalate (toChars ", ") cols ++
        toChars "\n\n" ++ concatAll (rws.map (fun r => r ++ [Char.ofNat 10]))
      some ⟨rt, sql, expl question sql rws⟩

/-! ### Concrete collaborators used to instantiate the pipeline -/

/-- A schema introspector for which every lookup fails: the storage engine
knows no such table, so `get_table_schema` returns its error string. -/
def sOfErr : List Char → List Char :=
  fun _ => toChars "Error fetching schema: table ghost does not exist"

/-- A schema introspector for which lookups succeed. -/
def sOfOk : List Char → List Char :=
  fun t => toChars "Table: " ++ t ++ toChars "\nColumns:\n  - n (int)\n"

/-- A generator that always answers "SELECT 1;". -/
def genA : List Char → List Char → List Char := fun _ _ => toChars "SELECT 1;"

/-- A generator that always answers "SELECT 2;". -/
def genB : List Char → List Char → List Char := fun _ _ => toChars "SELECT 2;"

/-- A row-returning storage engine that rejects every statement. -/
def runC : List Char → RunResult :=
  fun _ => RunResult.msg (toChars "Error executing query: table missing")

/-- An explainer returning the empty explanation. -/
def explC : List Char → List Char → List (List Char) → List Char :=
  fun _ _ _ => []

/-- A generation backend whose call raises (modelled as `Except.error`),
which `call_llm` converts into error text. -/
def cBackendErr : List Char → Except (List Char) (List Char) :=
  fun _ => Except.error (toChars "Connection refused")

/-- A non-row-returning storage engine that fails exactly on the
`call_llm` failure text and succeeds elsewhere. -/
def runA : List Char → List Char := fun s =>
  if s = toChars "Error calling LLM: Connection refused"
  then toChars "Error executing query: malformed statement"
  else toChars "Success: Query executed. Rows affected: 0"

/-- Like `runA` but with a different outcome on the failure text; used to
observe that the failure text is really executed. -/
def runB : List Char → List Char := fun s =>
  if s = toChars "Error calling LLM: Connection refused"
  then toChars "a different execution outcome"
  else toChars "Success: Query executed. Rows affected: 0"

/-- A raw generation output holding three INSERT statements, the second
of which is malformed. -/
def raw3 : List Char :=
  toChars "INSERT INTO t VALUES (1);INSERT INTO t VALUES (bad);INSERT INTO t VALUES (3);"

/-- A non-row-returning storage engine that rejects exactly the malformed
second statement of `raw3`. -/
def run3 : List Char → List Char := fun s =>
  if s = toChars "INSERT INTO t VALUES (bad);"
  then toChars "Error executing query: malformed row"
  else toChars "Success: Query executed. Rows affected: 1"

/-- A non-row-returning storage engine that accepts everything. -/
def runOk : List Char → List Char :=
  fun _ => toChars "Success: Query executed. Rows affected: 0"

/-- A one-column, one-row dataframe. -/
def dfOne : DF := ⟨[⟨toChars "a", DType.intD⟩], [[Cell.other (toChars "1")]]⟩

/-- A one-string-column, five-row dataframe (the `head()` window). -/
def df5 : DF :=
  ⟨[⟨toChars "name", DType.otherD⟩],
   [[Cell.str (toChars "ab")], [Cell.str (toChars "cd")], [Cell.str (toChars "ef")],
    [Cell.str (toChars "gh")], [Cell.str (toChars "ij")]]⟩

/-- A sixth row whose string value is far longer than anything in the
first five rows of `df5`. -/
def extraLong : List (List Cell) :=
  [[Cell.str (toChars "a string value longer than everything in the head")]]

/-! ### Lemmas about `pyStrip` -/

theorem head_dropWhile_false {p : Char → Bool} :
    ∀ {l : List Char} {c : Char}, (l.dropWhile p).head? = some c → p c = false := by
  intro l
  induction l with
  | nil => intro c h; simp [List.dropWhile] at h
  | cons x xs ih =>
    intro c h
    rw [List.dropWhile_cons] at h
    by_cases hx : p x
    · simp only [hx, if_true] at h
      exact ih h
    · rw [Bool.not_eq_true] at hx
      rw [hx] at h
      simp only [Bool.false_eq_true, if_false, List.head?_cons, Option.some.injEq] at h
      subst h
      exact hx

theorem getLast?_dropWhile_of_ne_nil {p : Char → Bool} {l : List Char}
    (h : l.dropWhile p ≠ []) : (l.dropWhile p).getLast? = l.getLast? := by
  conv_rhs => rw [← List.takeWhile_append_dropWhile (p := p) (l := l)]
  rw [List.getLast?_append_of_ne_nil _ h]

theorem dropWhile_stable {p : Char → Bool} (l : List Char)
    (h : ∀ c, l.head? = some c → p c = false) : l.dropWhile p = l := by
  cases l with
  | nil => rfl
  | cons x xs =>
    rw [List.dropWhile_cons]
    simp [h x rfl]

theorem pyStrip_head (s : List Char) {c : Char}
    (h : (pyStrip s).head? = some c) : isPySpace c = false := by
  unfold pyStrip at h
  rw [List.head?_reverse] at h
  have hne : ((s.dropWhile isPySpace).reverse.dropWhile isPySpace) ≠ [] := by
    intro hnil
    rw [hnil] at h
    simp at h
  rw [getLast?_dropWhile_of_ne_nil hne, List.getLast?_reverse] at h
  exact head_dropWhile_false h

theorem pyStrip_last (s : List Char) {c : Char}
    (h : (pyStrip s).getLast? = some c) : isPySpace c = false := by
  unfold pyStrip at h
  rw [List.getLast?_reverse] at h
  exact head_dropWhile_false h

theorem pyStrip_stable (t : List Char)
    (hh : ∀ c, t.head? = some c → isPySpace c = false)
    (hl : ∀ c, t.getLast? = some c → isPySpace c = false) : pyStrip t = t := by
  unfold pyStrip
  rw [dropWhile_stable t hh]
  have : t.reverse.dropWhile isPySpace = t.reverse := by
    apply dropWhile_stable
    intro c hc
    rw [List.head?_reverse] at hc
    exact hl c hc
  rw [this, List.reverse_reverse]

theorem pyStrip_idem (s : List Char) : pyStrip (pyStrip s) = pyStrip s :=
  pyStrip_stable _ (fun _ h => pyStrip_head s h) (fun _ h => pyStrip_last s h)

theorem mem_pyStrip {c : Char} {s : List Char} (h : c ∈ pyStrip s) : c ∈ s := by
  unfold pyStrip at h
  rw [List.mem_reverse] at h
  have h1 : c ∈ (s.dropWhile isPySpace).reverse :=
    (List.dropWhile_sublist isPySpace).mem h
  rw [List.mem_reverse] at h1
  exact (List.dropWhile_sublist isPySpace).mem h1

theorem all_space_of_pyStrip_nil {s : List Char} (h : pyStrip s = []) :
    ∀ c ∈ s, isPySpace c = true := by
  intro c hc
  unfold pyStrip at h
  rw [List.reverse_eq_nil_iff, List.dropWhile_eq_nil_iff] at h
  have h2 : ∀ x ∈ s.dropWhile isPySpace, isPySpace x := by
    intro x hx
    exact h x (by rwa [List.mem_reverse])
  rcases (List.mem_append.1 (by
    rw [List.takeWhile_append_dropWhile]
    exact hc : c ∈ s.takeWhile isPySpace ++ s.dropWhile isPySpace)) with hc1 | hc2
  · exact List.mem_takeWhile_imp hc1
  · exact h2 c hc2

theorem pyStrip_ne_nil_of_mem {c : Char} {s : List Char} (hc : c ∈ s)
    (hns : isPySpace c = false) : pyStrip s ≠ [] := by
  intro hnil
  have := all_space_of_pyStrip_nil hnil c hc
  rw [this] at hns
  exact Bool.true_eq_false.mp hns

/-! ### Lemmas about `splitSemi` -/

theorem splitSemi_ne_nil (s : List Char) : splitSemi s ≠ [] := by
  induction s with
  | nil => simp [splitSemi]
  | cons c rest ih =>
    rw [splitSemi]
    by_cases hc : c = ';'
    · simp [hc]
    · simp only [hc, if_false]
      cases hsp : splitSemi rest with
      | nil => exact absurd hsp ih
      | cons f fs => simp

theorem no_semi_of_mem_splitSemi :
    ∀ (s : List Char) (f : List Char), f ∈ splitSemi s → ';' ∉ f := by
  intro s
  induction s with
  | nil =>
    intro f hf
    simp [splitSemi] at hf
    simp [hf]
  | cons c rest ih =>
    intro f hf
    rw [splitSemi] at hf
    by_cases hc : c = ';'
    · simp only [hc, if_true] at hf
      rcases List.mem_cons.1 hf with h1 | h2
      · simp [h1]
      · exact ih f h2
    · simp only [hc, if_false] at hf
      cases hsp : splitSemi rest with
      | nil => exact absurd hsp (splitSemi_ne_nil rest)
      | cons g gs =>
        rw [hsp] at hf
        rcases List.mem_cons.1 hf with h1 | h2
        · subst h1
          intro hmem
          rcases List.mem_cons.1 hmem with h3 | h4
          · exact hc h3.symm
          · exact ih g (by rw [hsp]; exact List.mem_cons_self g gs) h4
        · exact ih f (by rw [hsp]; exact List.mem_cons_of_mem g h2)

theorem splitSemi_append (u r : List Char) (hu : ';' ∉ u) :
    splitSemi (u ++ ';' :: r) = u :: splitSemi r := by
  induction u with
  | nil => simp [splitSemi]
  | cons c u' ih =>
    have hc : c ≠ ';' := fun h => hu (by rw [h]; exact List.mem_cons_self _ _)
    have hu' : ';' ∉ u' := fun h => hu (List.mem_cons_of_mem c h)
    rw [List.cons_append, splitSemi]
    simp only [hc, if_false]
    rw [ih hu']

theorem exists_frag_of_mem {s : List Char} {c : Char} (hc : c ∈ s) (hne : c ≠ ';') :
    ∃ f ∈ splitSemi s, c ∈ f := by
  induction s with
  | nil => simp at hc
  | cons a rest ih =>
    rw [splitSemi]
    by_cases ha : a = ';'
    · have hcr : c ∈ rest := by
        rcases List.mem_cons.1 hc with h1 | h2
        · exact absurd (h1.trans ha) hne
        · exact h2
      rcases ih hcr with ⟨f, hf, hcf⟩
      exact ⟨f, by simp [ha, hf], hcf⟩
    · simp only [ha, if_false]
      cases hsp : splitSemi rest with
      | nil => exact absurd hsp (splitSemi_ne_nil rest)
      | cons g gs =>
        rcases List.mem_cons.1 hc with h1 | h2
        · exact ⟨a :: g, List.mem_cons_self _ _, by rw [h1]; exact List.mem_cons_self _ _⟩
        · rcases ih h2 with ⟨f, hf, hcf⟩
          rw [hsp] at hf
          rcases List.mem_cons.1 hf with h3 | h4
          · exact ⟨a :: g, List.mem_cons_self _ _, List.mem_cons_of_mem a (h3 ▸ hcf)⟩
          · exact ⟨f, List.mem_cons_of_mem _ h4, hcf⟩

/-! ### Unfolding lemmas for `eraseAll` -/

theorem eraseAllF_nil (p : Char) (ps : List Char) (f : Nat) :
    eraseAllF p ps f [] = [] := by
  cases f <;> rfl

theorem eraseAllF_congr (p : Char) (ps : List Char) :
    ∀ (f g : Nat) (s : List Char), s.length ≤ f → s.length ≤ g →
      eraseAllF p ps f s = eraseAllF p ps g s := by
  intro f
  induction f with
  | zero =>
    intro g s hf _
    have : s = [] := List.length_eq_zero.1 (Nat.le_zero.1 hf)
    rw [this, eraseAllF_nil, eraseAllF_nil]
  | succ f' ih =>
    intro g s hf hg
    cases s with
    | nil => rw [eraseAllF_nil, eraseAllF_nil]
    | cons c cs =>
      cases g with
      | zero => simp at hg
      | succ g' =>
        rw [eraseAllF, eraseAllF]
        by_cases hp : (p :: ps).isPrefixOf (c :: cs) = true
        · rw [if_pos hp, if_pos hp]
          apply ih
          · have h1 := List.length_drop ps.length cs
            simp only [List.length_cons] at hf
            omega
          · have h1 := List.length_drop ps.length cs
            simp only [List.length_cons] at hg
            omega
        · rw [if_neg hp, if_neg hp,
            ih g' cs (by simpa using hf) (by simpa using hg)]

theorem eraseAll_cons_pos (p : Char) (ps : List Char) (c : Char) (cs : List Char)
    (h : (p :: ps).isPrefixOf (c :: cs) = true) :
    eraseAll p ps (c :: cs) = eraseAll p ps (cs.drop ps.length) := by
  unfold eraseAll
  rw [show (c :: cs).length = cs.length + 1 from rfl, eraseAllF, if_pos h]
  apply eraseAllF_congr
  · rw [List.length_drop]
    omega
  · exact Nat.le_refl _

theorem eraseAll_cons_neg (p : Char) (ps : List Char) (c : Char) (cs : List Char)
    (h : ¬((p :: ps).isPrefixOf (c :: cs) = true)) :
    eraseAll p ps (c :: cs) = c :: eraseAll p ps cs := by
  unfold eraseAll
  rw [show (c :: cs).length = cs.length + 1 from rfl, eraseAllF, if_neg h]

theorem eraseAll_not_mem (p : Char) (ps : List Char) :
    ∀ (s : List Char), p ∉ s → eraseAll p ps s = s := by
  intro s
  induction s with
  | nil => intro _; rfl
  | cons c cs ih =>
    intro hmem
    have hc : c ≠ p := fun h => hmem (by rw [h]; exact List.mem_cons_self _ _)
    have hnp : ¬((p :: ps).isPrefixOf (c :: cs) = true) := by
      rw [List.isPrefixOf]
      simp [Ne.symm hc]
    rw [eraseAll_cons_neg _ _ _ _ hnp, ih (fun h => hmem (List.mem_cons_of_mem c h))]

/-! ### Lemmas about `containsSub` and prefixes -/

theorem isPrefixOf_append_self :
    ∀ (p t : List Char), p.isPrefixOf (p ++ t) = true := by
  intro p
  induction p with
  | nil => intro t; simp
  | cons a as ih =>
    intro t
    rw [List.cons_append, List.isPrefixOf_cons₂]
    simp [ih t]

theorem containsSub_of_isPrefixOf {pat s : List Char}
    (h : pat.isPrefixOf s = true) : containsSub pat s = true := by
  cases s with
  | nil =>
    rw [containsSub]
    cases pat with
    | nil => rfl
    | cons a as => simp [List.isPrefixOf] at h
  | cons c cs =>
    rw [containsSub, h, Bool.true_or]

theorem containsSub_cons_of {pat : List Char} {c : Char} {cs : List Char}
    (h : containsSub pat cs = true) : containsSub pat (c :: cs) = true := by
  rw [containsSub, h, Bool.or_true]

theorem containsSub_append_mid (pre pat post : List Char) :
    containsSub pat (pre ++ (pat ++ post)) = true := by
  induction pre with
  | nil =>
    rw [List.nil_append]
    exact containsSub_of_isPrefixOf (isPrefixOf_append_self pat post)
  | cons c cs ih =>
    rw [List.cons_append]
    exact containsSub_cons_of ih

/-! ### Shape of the sanitized statement set -/

/-- Every statement the sanitizer emits has the shape
`stripped-nonempty-semicolon-free ++ ";"`. -/
def StmtForm (t : List Char) : Prop :=
  ∃ u, t = u ++ [';'] ∧ u ≠ [] ∧ pyStrip u = u ∧ ';' ∉ u

theorem stmtForm_of_mem_splitFilter {s t : List Char}
    (h : t ∈ splitFilter s) : StmtForm t := by
  unfold splitFilter at h
  rcases List.mem_filterMap.1 h with ⟨frag, hfrag, hsome⟩
  simp only at hsome
  by_cases hemp : (pyStrip frag).isEmpty = true
  · rw [if_pos hemp] at hsome
    exact absurd hsome (by simp)
  · rw [if_neg hemp] at hsome
    rcases Option.some.injEq _ _ ▸ hsome with rfl
    refine ⟨pyStrip frag, rfl, ?_, pyStrip_idem frag, ?_⟩
    · intro hnil
      rw [hnil] at hemp
      exact hemp rfl
    · intro hsemi
      exact no_semi_of_mem_splitSemi s frag hfrag (mem_pyStrip hsemi)

theorem stmtForm_of_mem_sanitize {raw t : List Char}
    (h : t ∈ sanitize raw) : StmtForm t :=
  stmtForm_of_mem_splitFilter h

theorem stmtForm_head_not_space {t : List Char} (h : StmtForm t) :
    ∀ c, t.head? = some c → isPySpace c = false := by
  rcases h with ⟨u, rfl, hne, hstable, _⟩
  intro c hc
  rw [List.head?_append] at hc
  cases hu : u.head? with
  | none => exact absurd (List.head?_eq_none_iff.1 hu) hne
  | some a =>
    rw [hu] at hc
    simp only [Option.or_some, Option.some.injEq] at hc
    subst hc
    apply pyStrip_head u
    rw [hstable]
    exact hu

theorem stmtForm_stable {t : List Char} (h : StmtForm t) : pyStrip t = t := by
  have hlast : ∀ c, t.getLast? = some c → isPySpace c = false := by
    rcases h with ⟨u, rfl, _, _, _⟩
    intro c hc
    rw [List.getLast?_concat] at hc
    rcases Option.some.injEq _ _ ▸ hc with rfl
    decide
  exact pyStrip_stable t (stmtForm_head_not_space h) hlast

/-! ### Re-serialization: `splitFilter` of a concatenated statement set -/

theorem concatAll_cons (t : List Char) (L : List (List Char)) :
    concatAll (t :: L) = t ++ concatAll L := rfl

theorem splitFilter_concatAll :
    ∀ (L : List (List Char)), (∀ t ∈ L, StmtForm t) →
      splitFilter (concatAll L) = L := by
  intro L
  induction L with
  | nil =>
    intro _
    rfl
  | cons t rest ih =>
    intro hL
    rcases hL t (List.mem_cons_self _ _) with ⟨u, rfl, hne, hstable, hnosemi⟩
    rw [concatAll_cons, List.append_assoc, List.singleton_append]
    have hfu : (fun frag =>
        let t := pyStrip frag
        if t.isEmpty then none else some (t ++ [';'])) u = some (u ++ [';']) := by
      simp only [hstable]
      cases u with
      | nil => exact absurd rfl hne
      | cons a as => rfl
    unfold splitFilter
    rw [splitSemi_append u _ hnosemi]
    simp only [List.filterMap_cons, hfu]
    have htail := ih (fun x hx => hL x (List.mem_cons_of_mem _ hx))
    unfold splitFilter at htail
    rw [htail]

theorem concatAll_last_semi :
    ∀ (L : List (List Char)), (∀ t ∈ L, StmtForm t) → L ≠ [] →
      (concatAll L).getLast? = some ';' := by
  intro L
  induction L with
  | nil => intro _ h; exact absurd rfl h
  | cons t rest ih =>
    intro hL _
    rw [concatAll_cons]
    cases rest with
    | nil =>
      rcases hL t (List.mem_cons_self _ _) with ⟨u, rfl, _, _, _⟩
      rw [show concatAll ([] : List (List Char)) = [] from rfl, List.append_nil,
        List.getLast?_concat]
    | cons r rs =>
      have hcr : concatAll (r :: rs) ≠ [] := by
        rw [concatAll_cons]
        rcases hL r (List.mem_cons_of_mem t (List.mem_cons_self _ _)) with
          ⟨u, hu, hne, _, _⟩
        rw [hu]
        simp
      rw [List.getLast?_append_of_ne_nil _ hcr]
      exact ih (fun x hx => hL x (List.mem_cons_of_mem t hx)) (by simp)

theorem concatAll_head {t : List Char} {L : List (List Char)}
    (h : StmtForm t) : ∀ c, (concatAll (t :: L)).head? = some c →
      t.head? = some c := by
  intro c hc
  rcases h with ⟨u, rfl, hne, _, _⟩
  rw [concatAll_cons, List.head?_append, List.head?_append] at hc
  cases hu : u.head? with
  | none => exact absurd (List.head?_eq_none_iff.1 hu) hne
  | some a =>
    rw [hu] at hc
    simp only [Option.or_some, Option.some.injEq] at hc
    rw [List.head?_append, hu]
    simpa using hc

theorem pyStrip_concatAll_stable (L : List (List Char)) (hL : ∀ t ∈ L, StmtForm t) :
    pyStrip (concatAll L) = concatAll L := by
  cases L with
  | nil => rfl
  | cons t rest =>
    apply pyStrip_stable
    · intro c hc
      exact stmtForm_head_not_space (hL t (List.mem_cons_self _ _)) c
        (concatAll_head (hL t (List.mem_cons_self _ _)) c hc)
    · intro c hc
      rw [concatAll_last_semi (t :: rest) hL (by simp)] at hc
      rcases Option.some.injEq _ _ ▸ hc with rfl
      decide

theorem sanitize_concatAll (L : List (List Char)) (hL : ∀ t ∈ L, StmtForm t)
    (hpre : (toChars "```sql").isPrefixOf (concatAll L) = false) :
    sanitize (concatAll L) = L := by
  cases L with
  | nil => decide
  | cons t rest =>
    have hstable := pyStrip_concatAll_stable (t :: rest) hL
    unfold sanitize cleanSql
    simp only [hstable]
    rw [if_neg (by rw [hpre]; exact Bool.false_ne_true)]
    exact splitFilter_concatAll (t :: rest) hL

/-! ### Claim C3: shape of the statement split -/

/-- C3 counterexample: the raw output consisting of the single character
`;` is non-empty and contains a statement terminator, yet the sanitizer
produces the empty statement sequence. -/
theorem C3_counterexample :
    toChars ";" ≠ [] ∧ ';' ∈ toChars ";" ∧ sanitize (toChars ";") = [] := by
  decide

/-- C3 (amended): the statement split is non-empty whenever the cleaned
text contains at least one character that is neither whitespace nor the
terminator (not merely any terminator, as the original claim said); and
unconditionally every emitted statement, once trimmed, is non-empty and
ends with the terminator `;`. -/
theorem C3_statement_split :
    (∀ raw c, c ∈ cleanSql raw → isPySpace c = false → c ≠ ';' →
      sanitize raw ≠ []) ∧
    (∀ raw t, t ∈ sanitize raw →
      pyStrip t ≠ [] ∧ (pyStrip t).getLast? = some ';') := by
  constructor
  · intro raw c hc hns hne
    rcases exists_frag_of_mem hc hne with ⟨f, hf, hcf⟩
    have hne2 : pyStrip f ≠ [] := pyStrip_ne_nil_of_mem hcf hns
    have hsome : (fun frag =>
        let t := pyStrip frag
        if t.isEmpty then none else some (t ++ [';'])) f =
          some (pyStrip f ++ [';']) := by
      cases hpf : pyStrip f with
      | nil => exact absurd hpf hne2
      | cons a as => simp only [hpf]; rfl
    have hmem : (pyStrip f ++ [';']) ∈ sanitize raw := by
      unfold sanitize splitFilter
      exact List.mem_filterMap.2 ⟨f, hf, hsome⟩
    exact List.ne_nil_of_mem hmem
  · intro raw t ht
    rcases stmtForm_of_mem_sanitize ht with hform
    have hstable := stmtForm_stable hform
    rcases hform with ⟨u, rfl, _, _, _⟩
    refine ⟨?_, ?_⟩
    · rw [hstable]
      simp
    · rw [hstable, List.getLast?_concat]

/-- C3 witness: both conjuncts of `C3_statement_split` applied at the
concrete raw output "SELECT 1;". -/
theorem C3_witness :
    sanitize (toChars "SELECT 1;") ≠ [] ∧
    (pyStrip (toChars "SELECT 1;") ≠ [] ∧
      (pyStrip (toChars "SELECT 1;")).getLast? = some ';') :=
  ⟨C3_statement_split.1 (toChars "SELECT 1;") 'S' (by decide) (by decide) (by decide),
   C3_statement_split.2 (toChars "SELECT 1;") (toChars "SELECT 1;") (by decide)⟩

/-! ### Claim C4: fence stripping -/

theorem eraseAll_bt_tail (body : List Char) (hb : btChar ∉ body) :
    eraseAll btChar (toChars "``") (body ++ toChars "```") = body := by
  induction body with
  | nil => decide
  | cons c cs ih =>
    have hc : c ≠ btChar := fun h => hb (by rw [h]; exact List.mem_cons_self _ _)
    rw [List.cons_append, eraseAll_cons_neg _ _ _ _ (by
      rw [List.isPrefixOf_cons₂]
      simp [Ne.symm hc]),
      ih (fun h => hb (List.mem_cons_of_mem c h))]

theorem eraseAll_bts_tail (body : List Char) (hb : btChar ∉ body) :
    eraseAll btChar (toChars "``sql") (body ++ toChars "```") =
      body ++ toChars "```" := by
  induction body with
  | nil => decide
  | cons c cs ih =>
    have hc : c ≠ btChar := fun h => hb (by rw [h]; exact List.mem_cons_self _ _)
    rw [List.cons_append, eraseAll_cons_neg _ _ _ _ (by
      rw [List.isPrefixOf_cons₂]
      simp [Ne.symm hc]),
      ih (fun h => hb (List.mem_cons_of_mem c h))]

theorem cleanSql_fenced (body : List Char) (hb : btChar ∉ body) :
    cleanSql (toChars "```sql" ++ body ++ toChars "```") = pyStrip body := by
  have hstable : pyStrip (toChars "```sql" ++ body ++ toChars "```") =
      toChars "```sql" ++ body ++ toChars "```" := by
    apply pyStrip_stable
    · intro c hc
      rw [List.append_assoc, List.head?_append] at hc
      simp only [show (toChars "```sql").head? = some btChar from rfl] at hc
      rcases Option.some.injEq _ _ ▸ hc with rfl
      decide
    · intro c hc
      rw [List.append_assoc, List.getLast?_append_of_ne_nil _ (by
        intro h
        exact absurd (List.append_eq_nil.1 h).2 (by decide)),
        List.getLast?_append_of_ne_nil _ (by decide)] at hc
      have : (toChars "```").getLast? = some btChar := by decide
      rw [this] at hc
      rcases Option.some.injEq _ _ ▸ hc with rfl
      decide
  unfold cleanSql
  simp only [hstable]
  rw [if_pos (by
    rw [List.append_assoc]
    exact isPrefixOf_append_self (toChars "```sql") (body ++ toChars "```"))]
  have h1 : eraseAll btChar (toChars "``sql")
      (toChars "```sql" ++ body ++ toChars "```") = body ++ toChars "```" := by
    rw [List.append_assoc,
      show toChars "```sql" = btChar :: toChars "``sql" from by decide,
      List.cons_append,
      eraseAll_cons_pos btChar (toChars "``sql") btChar _ (by
        rw [← List.cons_append]
        exact isPrefixOf_append_self (btChar :: toChars "``sql") _),
      List.drop_left]
    exact eraseAll_bts_tail body hb
  rw [h1, eraseAll_bt_tail body hb]

theorem cleanSql_no_bt (body : List Char) (hb : btChar ∉ body) :
    cleanSql body = pyStrip body := by
  unfold cleanSql
  rw [if_neg ?hcond]
  case hcond =>
    intro hpre
    rw [show toChars "```sql" = btChar :: toChars "``sql" from by decide] at hpre
    cases hps : pyStrip body with
    | nil =>
      rw [hps] at hpre
      simp at hpre
    | cons c cs =>
      rw [hps, List.isPrefixOf_cons₂, Bool.and_eq_true] at hpre
      have hc : btChar = c := beq_iff_eq.mp hpre.1
      have hcb : c ∈ body := mem_pyStrip (by rw [hps]; exact List.mem_cons_self _ _)
      exact hb (hc ▸ hcb)

/-- C4 (amended): sanitization strips a fenced code block only when the
opening fence carries the `sql` tag (an untagged fence is passed through
untouched, contrary to the original claim); for any backtick-free body
the tagged fence is transparent, and in particular the spec example
holds: sanitizing the sql-tagged fence around "SELECT 1;" yields exactly
the one statement "SELECT 1;". -/
theorem C4_fence_stripping :
    (∀ body, btChar ∉ body →
      sanitize (toChars "```sql" ++ body ++ toChars "```") = sanitize body) ∧
    sanitize (toChars "```sql\nSELECT 1;\n```") = [toChars "SELECT 1;"] := by
  constructor
  · intro body hb
    unfold sanitize
    rw [cleanSql_fenced body hb, cleanSql_no_bt body hb]
  · decide

/-- C4 counterexample: an untagged fence is NOT stripped — the fence
markers survive into the statement set. -/
theorem C4_counterexample :
    sanitize (toChars "```\nSELECT 1;\n```") ≠ [toChars "SELECT 1;"] ∧
    sanitize (toChars "```\nSELECT 1;\n```") =
      [toChars "```\nSELECT 1;", toChars "```;"] := by
  decide

/-- C4 witness: the general tagged-fence part of `C4_fence_stripping`
applied at the concrete body of the spec example. -/
theorem C4_witness :
    btChar ∉ toChars "\nSELECT 1;\n" ∧
    sanitize (toChars "```sql" ++ toChars "\nSELECT 1;\n" ++ toChars "```") =
      sanitize (toChars "\nSELECT 1;\n") :=
  ⟨by decide, C4_fence_stripping.1 (toChars "\nSELECT 1;\n") (by decide)⟩

/-! ### Claim C5: idempotence of sanitization -/

/-- C5 counterexample: sanitization is NOT idempotent as claimed.  For the
raw output ";```sqlfoo" the first pass emits the statement "```sqlfoo;";
re-serializing puts the sql fence tag at the front, so the second pass
strips it and yields "foo;" instead. -/
theorem C5_counterexample :
    sanitize (sanitize_text (toChars ";```sqlfoo")) ≠
      sanitize (toChars ";```sqlfoo") := by
  decide

/-- C5 (amended): sanitization is idempotent provided the re-serialized
statement set does not itself begin with the sql fence tag (the condition
the counterexample violates). -/
theorem C5_conditional_idempotence (x : List Char)
    (h : (toChars "```sql").isPrefixOf (sanitize_text x) = false) :
    sanitize (sanitize_text x) = sanitize x := by
  unfold sanitize_text at h ⊢
  exact sanitize_concatAll _ (fun t ht => stmtForm_of_mem_sanitize ht) h

/-- C5 witness: `C5_conditional_idempotence` at the concrete raw output
"SELECT 1; SELECT 2". -/
theorem C5_witness :
    (toChars "```sql").isPrefixOf
      (sanitize_text (toChars "SELECT 1; SELECT 2")) = false ∧
    sanitize (sanitize_text (toChars "SELECT 1; SELECT 2")) =
      sanitize (toChars "SELECT 1; SELECT 2") :=
  ⟨by decide, C5_conditional_idempotence _ (by decide)⟩

/-! ### The SQL field of a query report -/

theorem query_handler_sqlText (sOf : List Char → List Char)
    (gen : List Char → List Char → List Char) (run : List Char → RunResult)
    (expl : List Char → List Char → List (List Char) → List Char)
    (q t : List Char) (r : QHOut)
    (hq : q.isEmpty = false) (ht : t.isEmpty = false)
    (hr : query_handler sOf gen run expl q t = some r) :
    r.sqlText = cleanSql (gen q (sOf t)) := by
  unfold query_handler at hr
  rw [if_neg (by rw [hq, ht]; simp)] at hr
  simp only at hr
  cases hrun : run (cleanSql (gen q (sOf t))) with
  | msg m =>
    rw [hrun] at hr
    dsimp only at hr
    by_cases hce : containsSub (toChars "Error") m = true
    · rw [if_pos hce] at hr
      rcases Option.some.injEq _ _ ▸ hr with rfl
      rfl
    · rw [if_neg hce] at hr
      exact absurd hr (by simp)
  | rowSet cols rws =>
    rw [hrun] at hr
    dsimp only at hr
    rcases Option.some.injEq _ _ ▸ hr with rfl
    rfl

/-! ### Claim C1: unknown table in the question pipeline -/

/-- C1 counterexample: with a schema introspector that fails on every
table (the storage engine knows no such table), `query_handler` output
still depends on the Statement Generator — two generators differing only
in their answer give different reports — so the generator IS invoked, and
the SQL field carries its (cleaned) output rather than an
UnknownTableError outcome. -/
theorem C1_counterexample :
    query_handler sOfErr genA runC explC (toChars "how many rows") (toChars "ghost") ≠
      query_handler sOfErr genB runC explC (toChars "how many rows") (toChars "ghost") ∧
    (query_handler sOfErr genA runC explC (toChars "how many rows")
      (toChars "ghost")).map QHOut.sqlText = some (toChars "SELECT 1;") := by
  decide

/-- C1 (amended): on an unknown table `query_handler` does not
short-circuit: the schema-lookup error text is passed to the Statement
Generator as the schema, and whenever the handler returns a report its
SQL field equals the cleaned generator output computed from that error
text. -/
theorem C1_generator_still_invoked (sOf : List Char → List Char)
    (gen : List Char → List Char → List Char) (run : List Char → RunResult)
    (expl : List Char → List Char → List (List Char) → List Char)
    (q t : List Char) (r : QHOut)
    (hq : q.isEmpty = false) (ht : t.isEmpty = false)
    (_hschema : containsSub (toChars "Error fetching schema") (sOf t) = true)
    (hr : query_handler sOf gen run expl q t = some r) :
    r.sqlText = cleanSql (gen q (sOf t)) :=
  query_handler_sqlText sOf gen run expl q t r hq ht hr

/-- C1 witness: `C1_generator_still_invoked` at the concrete failing
introspector `sOfErr` and generator `genA`. -/
theorem C1_witness :
    QHOut.sqlText ⟨toChars "Error executing query: table missing",
      toChars "SELECT 1;", []⟩ =
      cleanSql (genA (toChars "how many rows") (sOfErr (toChars "ghost"))) :=
  C1_generator_still_invoked sOfErr genA runC explC
    (toChars "how many rows") (toChars "ghost") _
    (by decide) (by decide) (by decide) (by decide)

/-! ### Claim C2: generation failure is not short-circuited -/

/-- C2 counterexample: with a backend failure surfaced by `call_llm` as
text, `create_table_from_text` output depends on the storage engine
value at that failure text — two engines differing only there give
different reports — so the failure text IS executed (and sanitized), and
the report contains the failure text; the claimed short-circuit does not
happen. -/
theorem C2_counterexample :
    create_table_from_text (fun d => call_llm cBackendErr d) runA
        (toChars "make a table") ≠
      create_table_from_text (fun d => call_llm cBackendErr d) runB
        (toChars "make a table") ∧
    containsSub (toChars "Error calling LLM:")
      (create_table_from_text (fun d => call_llm cBackendErr d) runA
        (toChars "make a table")) = true := by
  decide

/-- C2 (amended): a generation-backend failure is returned as text, not
thrown (`call_llm` catches it), but the pipeline is NOT short-circuited:
the failure text flows through sanitization and is executed against the
storage engine, and the report records both the failure text and the
execution outcome on it. -/
theorem C2_failure_text_flows_on (tmpl : List Char → List Char)
    (backend : List Char → Except (List Char) (List Char))
    (run : List Char → List Char) (desc e : List Char)
    (hfail : backend (tmpl desc) = Except.error e) :
    create_table_from_text (fun d => call_llm backend (tmpl d)) run desc =
      toChars "Generated SQL:\n" ++
        cleanSql (toChars "Error calling LLM: " ++ e) ++
        toChars "\n\nResult: " ++
        run (cleanSql (toChars "Error calling LLM: " ++ e)) := by
  simp only [create_table_from_text, call_llm, hfail]

/-- C2 witness: `C2_failure_text_flows_on` at the concrete failing
backend `cBackendErr` and engine `runA`. -/
theorem C2_witness :
    create_table_from_text (fun d => call_llm cBackendErr ((fun x => x) d))
        runA (toChars "make a table") =
      toChars "Generated SQL:\n" ++
        cleanSql (toChars "Error calling LLM: " ++ toChars "Connection refused") ++
        toChars "\n\nResult: " ++
        runA (cleanSql (toChars "Error calling LLM: " ++
          toChars "Connection refused")) :=
  C2_failure_text_flows_on (fun x => x) cBackendErr runA
    (toChars "make a table") (toChars "Connection refused") rfl

/-! ### Claim C6: type inference -/

/-- C6: `infer_sql_type` maps the integer dtype to INT, float to FLOAT,
boolean to BOOLEAN, datetime to DATETIME, and otherwise returns
VARCHAR(min(2 x max observed length, 500)) where the maximum ranges over
the non-null samples and defaults to 255 (hence width 500) when no
non-null sample exists.  It is a total function, so it never raises. -/
theorem C6_infer_type (samples : List Cell) :
    infer_sql_type DType.intD samples = SqlType.INT ∧
    infer_sql_type DType.floatD samples = SqlType.FLOAT ∧
    infer_sql_type DType.boolD samples = SqlType.BOOLEAN ∧
    infer_sql_type DType.datetimeD samples = SqlType.DATETIME ∧
    infer_sql_type DType.otherD samples =
      SqlType.VARCHAR (min (2 * pyMaxD
        ((samples.filter (fun v => !v.isNull)).map
          (fun v => v.render.length)) 255) 500) ∧
    ((samples.filter (fun v => !v.isNull)) = [] →
      infer_sql_type DType.otherD samples = SqlType.VARCHAR 500) := by
  refine ⟨rfl, rfl, rfl, rfl, ?_, ?_⟩
  · unfold infer_sql_type
    rw [Nat.mul_comm]
  · intro h
    unfold infer_sql_type
    rw [h]
    rfl

/-- C6 witness: the no-non-null-sample default of `C6_infer_type` at the
concrete sample list `[null]`: the default 255 gives VARCHAR(500). -/
theorem C6_witness :
    infer_sql_type DType.otherD [Cell.null] = SqlType.VARCHAR 500 :=
  (C6_infer_type [Cell.null]).2.2.2.2.2 (by decide)

/-! ### Claim C7: independent per-statement execution -/

theorem execAll_eq_map (run : List Char → List Char) :
    ∀ L : List (List Char), execAll run L = L.map run := by
  intro L
  induction L with
  | nil => rfl
  | cons t rest ih => rw [execAll, ih, List.map_cons]

/-- C7: the execution loop of `insert_rows_from_text` runs every
sanitized statement independently in order — the outcome list is exactly
the statement list mapped through the storage engine, so one outcome is
recorded per statement and no failure aborts the remaining statements;
concretely, for three INSERTs whose second is malformed the loop records
three outcomes: success, failure, success. -/
theorem C7_per_statement_outcomes :
    (∀ (run : List Char → List Char) (raw : List Char),
      execAll run (sanitize raw) = (sanitize raw).map run ∧
      (execAll run (sanitize raw)).length = (sanitize raw).length) ∧
    (sanitize raw3).length = 3 ∧
    execAll run3 (sanitize raw3) =
      [toChars "Success: Query executed. Rows affected: 1",
       toChars "Error executing query: malformed row",
       toChars "Success: Query executed. Rows affected: 1"] := by
  refine ⟨fun run raw => ⟨execAll_eq_map run _, ?_⟩, by decide, by decide⟩
  rw [execAll_eq_map run _, List.length_map]

/-! ### Claim C8: literal escaping in generated INSERT text -/

/-- C8: in INSERT statements built by CSV ingestion, every single quote
in a string value is doubled (quotes in, quotes out: the escaped text has
exactly twice as many quotes and leaves all other characters untouched),
a null cell renders as the bare NULL literal, a non-string value renders
as its natural text, and the value O'Brien renders as 'O''Brien' inside
the INSERT. -/
theorem C8_escaping :
    (∀ s, (pyEscape s).count qc = 2 * s.count qc) ∧
    (∀ (s : List Char) (c : Char), c ≠ qc →
      (pyEscape s).count c = s.count c) ∧
    renderValue Cell.null = toChars "NULL" ∧
    (∀ s, renderValue (Cell.other s) = s) ∧
    buildInsert (toChars "people")
        [Cell.str (toChars "O" ++ [qc] ++ toChars "Brien"), Cell.null] =
      toChars "INSERT INTO people VALUES (" ++
        [qc] ++ toChars "O" ++ [qc] ++ [qc] ++ toChars "Brien" ++ [qc] ++
        toChars ", NULL);" := by
  refine ⟨?_, ?_, rfl, fun s => rfl, by decide⟩
  · intro s
    induction s with
    | nil => rfl
    | cons c rest ih =>
      by_cases hc : c = qc
      · subst hc
        rw [pyEscape, if_pos rfl]
        simp only [List.count_cons, beq_self_eq_true, if_pos rfl, ih]
        omega
      · rw [pyEscape, if_neg hc]
        have hne : (c == qc) = false := beq_eq_false_iff_ne.2 hc
        simp only [List.count_cons, hne, ih, Bool.false_eq_true, if_false]
        omega
  · intro s c hc
    induction s with
    | nil => rfl
    | cons a rest ih =>
      by_cases ha : a = qc
      · subst ha
        rw [pyEscape, if_pos rfl]
        have hne : (qc == c) = false := beq_eq_false_iff_ne.2 (Ne.symm hc)
        simp only [List.count_cons, hne, ih, Bool.false_eq_true, if_false]
      · rw [pyEscape, if_neg ha]
        simp only [List.count_cons, ih]

/-- C8 witness: the quote-preservation conjunct of `C8_escaping` applied
at the concrete value O'Brien and the non-quote character B. -/
theorem C8_witness :
    (pyEscape (toChars "O" ++ [qc] ++ toChars "Brien")).count 'B' =
      (toChars "O" ++ [qc] ++ toChars "Brien").count 'B' :=
  C8_escaping.2.1 (toChars "O" ++ [qc] ++ toChars "Brien") 'B' (by decide)

/-! ### Claim C9: reports include the generated SQL -/

/-- C9 counterexample: the CSV-ingestion task kind violates the claim —
the `csv_to_sql` report carries only the table name and the insert count,
never the CREATE TABLE (or INSERT) text that was built and executed. -/
theorem C9_counterexample :
    containsSub (create_stmt dfOne (toChars "t"))
      (csv_to_sql runOk dfOne (toChars "t")) = false ∧
    create_stmt dfOne (toChars "t") = toChars "CREATE TABLE t (a INT);" ∧
    csv_to_sql runOk dfOne (toChars "t") =
      toChars "Success! Created table " ++ [qc] ++ toChars "t" ++ [qc] ++
        toChars " and inserted 1 rows." := by
  decide

/-- C9 (amended): the chat-driven task kinds do include the exact
generated SQL in every report, even on failure — the create-table and
insert-rows reports contain the cleaned generated SQL as a substring, and
the query report's SQL field equals the cleaned generator output — but
the CSV-ingestion report does not include the built SQL. -/
theorem C9_report_includes_sql :
    (∀ gen run desc, containsSub (cleanSql (gen desc))
      (create_table_from_text gen run desc) = true) ∧
    (∀ gen run table desc, containsSub (cleanSql (gen table desc))
      (insert_rows_from_text gen run table desc) = true) ∧
    (∀ sOf gen run expl (q t : List Char) (r : QHOut),
      q.isEmpty = false → t.isEmpty = false →
      query_handler sOf gen run expl q t = some r →
      r.sqlText = cleanSql (gen q (sOf t))) := by
  refine ⟨?_, ?_, ?_⟩
  · intro gen run desc
    unfold create_table_from_text
    simp only [List.append_assoc]
    exact containsSub_append_mid _ _ _
  · intro gen run table desc
    unfold insert_rows_from_text
    simp only [List.append_assoc]
    exact containsSub_append_mid _ _ _
  · intro sOf gen run expl q t r hq ht hr
    exact query_handler_sqlText sOf gen run expl q t r hq ht hr

/-- C9 witness: the query conjunct of `C9_report_includes_sql` at a
concrete working introspector and failing storage engine: the report
still carries the generated SQL "SELECT 1;". -/
theorem C9_witness :
    QHOut.sqlText ⟨toChars "Error executing query: table missing",
      toChars "SELECT 1;", []⟩ =
      cleanSql (genA (toChars "count the rows") (sOfOk (toChars "people"))) :=
  C9_report_includes_sql.2.2 sOfOk genA runC explC
    (toChars "count the rows") (toChars "people") _
    (by decide) (by decide) (by decide)

/-! ### Claim C10: string sizing sees only the first five rows -/

/-- C10: the sample window used to size a column is `df[col].head()`, the
first five values; appending any rows after a dataframe that already has
at least five rows leaves the generated CREATE TABLE statement — and so
every declared column width — unchanged. -/
theorem C10_head_five_sizing (df : DF) (extra : List (List Cell))
    (table : List Char) (h5 : 5 ≤ df.rows.length) :
    create_stmt ⟨df.headers, df.rows ++ extra⟩ table = create_stmt df table := by
  have hcol : ∀ j, (colCells ⟨df.headers, df.rows ++ extra⟩ j).take 5 =
      (colCells df j).take 5 := by
    intro j
    unfold colCells
    simp only [List.map_append]
    rw [List.take_append_of_le_length (by
      rw [List.length_map]
      exact h5)]
  unfold create_stmt
  have hmap : (DF.mk df.headers (df.rows ++ extra)).headers.enum.map (fun p =>
      cleanColName p.2.name ++ toChars " " ++
        (infer_sql_type p.2.dtype
          ((colCells (DF.mk df.headers (df.rows ++ extra)) p.1).take 5)).renderT) =
      df.headers.enum.map (fun p =>
      cleanColName p.2.name ++ toChars " " ++
        (infer_sql_type p.2.dtype ((colCells df p.1).take 5)).renderT) := by
    apply List.map_congr_left
    intro p _
    rw [hcol p.1]
  rw [hmap]

/-- C10 witness: `C10_head_five_sizing` at the concrete five-row frame
`df5` extended by a sixth row with a far longer string: the declared
width stays VARCHAR(4), sized from the first five values only. -/
theorem C10_witness :
    5 ≤ df5.rows.length ∧
    create_stmt ⟨df5.headers, df5.rows ++ extraLong⟩ (toChars "t") =
      create_stmt df5 (toChars "t") ∧
    create_stmt df5 (toChars "t") = toChars "CREATE TABLE t (name VARCHAR(4));" :=
  ⟨by decide, C10_head_five_sizing df5 extraLong (toChars "t") (by decide), by decide⟩
